import Mathlib

/-!
Verification of the snow particle overlay (snow module of the tarelka page).

The development shallowly embeds the snow overlay: the `Snowflake` particle
class, the population manager (`adjustFlakeCount`, `pickLayer`), the
simulation step (`Snowflake.update`, `SnowEffect.update`), the batched
renderer (`drawBatched`) and the overlay controller state (`SnowEffect`,
`SnowSystem.toggle`).  JavaScript numbers are embedded as rationals; the
uniform random draws consumed by the code (`Math.random()`) are passed in
explicitly as `RandSrc` bundles, and the persisted preference
(`localStorage`) and the drawing surface are explicit state components.
-/

namespace Tarelka

/-- Layer distribution ratios: background, middle, foreground. -/
def LAYER_DISTRIBUTION : List ℚ := [3/10, 4/10, 3/10]

/-- Radius threshold: at or below this, a filled square is drawn instead of a
circle. -/
def SMALL_FLAKE_THRESHOLD : ℚ := 2

/-- Minimum snowflake count so the effect stays visible on tiny viewports. -/
def MIN_SNOWFLAKES : ℕ := 10

/-- One bundle of uniform random draws in `[0,1)` consumed by a single
`Snowflake.reset` call: horizontal position, vertical position (used only on
initial construction), radius, speed, drift and opacity. -/
structure RandSrc where
  rx : ℚ
  ry : ℚ
  rr : ℚ
  rs : ℚ
  rd : ℚ
  ro : ℚ
deriving DecidableEq

/-- An rgba fill-color descriptor: the embedding of the fill-style string
built by the code. -/
structure FillStyle where
  red : ℕ
  green : ℕ
  blue : ℕ
  alpha : ℚ
deriving DecidableEq

/-- Translucency-encoded white: the color the code derives from an opacity. -/
def rgbaWhite (o : ℚ) : FillStyle :=
  { red := 255, green := 255, blue := 255, alpha := o }

/-- One snow particle: kinematic and visual state plus cached canvas bounds. -/
structure Snowflake where
  x : ℚ
  y : ℚ
  layer : ℕ
  radius : ℚ
  speed : ℚ
  drift : ℚ
  opacity : ℚ
  fillStyle : FillStyle
  canvasWidth : ℚ
  canvasHeight : ℚ
deriving DecidableEq

/-- `Snowflake.reset(canvasWidth, canvasHeight, layer, initial)`: assigns a
fresh randomized state.  The vertical position is randomized over the full
height only when `initial` is true, otherwise it is pinned to `-10`.  The
opacity is quantized to a tenth (`Math.round(v * 10) / 10`) and the fill
style is rederived from it. -/
def Snowflake.reset (canvasWidth canvasHeight : ℚ) (layer : ℕ) (initial : Bool)
    (r : RandSrc) : Snowflake :=
  let layerScale : ℚ := 1/2 + (layer : ℚ) * (3/10)
  let opacity : ℚ := ((round ((3/10 + r.ro * (4/10)) * layerScale * 10) : ℤ) : ℚ) / 10
  { x := r.rx * canvasWidth
    y := if initial then r.ry * canvasHeight else -10
    layer := layer
    radius := (1 + r.rr * (5/2)) * layerScale
    speed := (1/2 + r.rs * 1) * layerScale
    drift := (r.rd - 1/2) * (1/2) * layerScale
    opacity := opacity
    fillStyle := rgbaWhite opacity
    canvasWidth := canvasWidth
    canvasHeight := canvasHeight }

/-- `new Snowflake(w, h, layer)`: the constructor resets with `initial = true`. -/
def Snowflake.construct (canvasWidth canvasHeight : ℚ) (layer : ℕ)
    (r : RandSrc) : Snowflake :=
  Snowflake.reset canvasWidth canvasHeight layer true r

/-- `Snowflake.update(delta)`: fall and drift (scaled to a 60fps-equivalent
rate), reset in place when past the bottom edge, then wrap horizontally. -/
def Snowflake.update (f : Snowflake) (delta : ℚ) (r : RandSrc) : Snowflake :=
  let f1 : Snowflake :=
    { f with y := f.y + f.speed * delta * 60, x := f.x + f.drift * delta * 60 }
  let f2 : Snowflake :=
    if f1.y > f1.canvasHeight + 10 then
      Snowflake.reset f1.canvasWidth f1.canvasHeight f1.layer false r
    else f1
  if f2.x > f2.canvasWidth + 10 then { f2 with x := -10 }
  else if f2.x < -10 then { f2 with x := f2.canvasWidth + 10 }
  else f2

/-- Weighted random layer selection against the distribution ratios
(cumulative-probability selection). -/
def pickLayer (r : ℚ) : ℕ :=
  if r < LAYER_DISTRIBUTION.getD 0 0 then 0
  else if r < LAYER_DISTRIBUTION.getD 0 0 + LAYER_DISTRIBUTION.getD 1 0 then 1
  else 2

/-- The population target for a viewport:
`max(floor(area / flakesPerArea), MIN_SNOWFLAKES)`. -/
def targetTotal (canvasWidth canvasHeight flakesPerArea : ℚ) : ℕ :=
  max (⌊canvasWidth * canvasHeight / flakesPerArea⌋.toNat) MIN_SNOWFLAKES

/-- A layer's shrink quota: `floor(targetTotal * LAYER_DISTRIBUTION[layer])`. -/
def layerQuota (targetTotal : ℕ) (layer : ℕ) : ℕ :=
  (⌊(targetTotal : ℚ) * LAYER_DISTRIBUTION.getD layer 0⌋).toNat

/-- `SnowEffect._adjustFlakeCount`: reconcile the live collection toward the
target.  Growth appends freshly constructed flakes whose layers come from
weighted random draws (`layerRand i` is the `Math.random()` value of the
`i`-th pick, `resetRand i` the draws of its reset); shrink keeps, per layer,
the first `layerQuota` flakes of that layer in existing order. -/
def adjustFlakeCount (snowflakes : List Snowflake)
    (canvasWidth canvasHeight flakesPerArea : ℚ)
    (layerRand : ℕ → ℚ) (resetRand : ℕ → RandSrc) : List Snowflake :=
  let target := targetTotal canvasWidth canvasHeight flakesPerArea
  let current := snowflakes.length
  if target > current then
    snowflakes ++ (List.range (target - current)).map
      (fun i => Snowflake.construct canvasWidth canvasHeight
        (pickLayer (layerRand i)) (resetRand i))
  else if target < current then
    (List.range LAYER_DISTRIBUTION.length).flatMap
      (fun layer => (snowflakes.filter (fun f => f.layer == layer)).take
        (layerQuota target layer))
  else snowflakes

/-- The snow effect manager's state. -/
structure SnowEffect where
  canvasWidth : ℚ
  canvasHeight : ℚ
  snowflakes : List Snowflake
  enabled : Bool
deriving DecidableEq

/-- `SnowEffect.update(delta)`: no-op while disabled, otherwise advance every
flake (the `i`-th flake's potential reset consumes `resetRand i`). -/
def SnowEffect.update (s : SnowEffect) (delta : ℚ) (resetRand : ℕ → RandSrc) :
    SnowEffect :=
  if s.enabled then
    { s with snowflakes :=
        s.snowflakes.mapIdx (fun i f => f.update delta (resetRand i)) }
  else s

/-- A sequence of `update(delta)` calls. -/
def SnowEffect.updates (s : SnowEffect) (steps : List (ℚ × (ℕ → RandSrc))) :
    SnowEffect :=
  steps.foldl (fun st p => st.update p.1 p.2) s

/-- `SnowEffect.resize()`: adopt the new viewport size, refresh every flake's
cached bounds, then reconcile the population. -/
def SnowEffect.resize (s : SnowEffect) (w h flakesPerArea : ℚ)
    (layerRand : ℕ → ℚ) (resetRand : ℕ → RandSrc) : SnowEffect :=
  let updated := s.snowflakes.map
    (fun f => { f with canvasWidth := w, canvasHeight := h })
  { s with
    canvasWidth := w,
    canvasHeight := h,
    snowflakes := adjustFlakeCount updated w h flakesPerArea layerRand resetRand }

/-- A rendered primitive: a filled axis-aligned square (fillRect) or a filled
circle (arc), each carrying the fill color it is painted with. -/
inductive Prim where
  | rect (x y w h : ℚ) (fill : FillStyle)
  | circle (cx cy radius : ℚ) (fill : FillStyle)
deriving DecidableEq

/-- The square painted for a small flake: side `2 * radius`, centered. -/
def rectOf (f : Snowflake) (fill : FillStyle) : Prim :=
  Prim.rect (f.x - f.radius) (f.y - f.radius) (f.radius * 2) (f.radius * 2) fill

/-- The circle painted for a large flake. -/
def circleOf (f : Snowflake) (fill : FillStyle) : Prim :=
  Prim.circle f.x f.y f.radius fill

/-- First-occurrence deduplication: the iteration order of the keys of a
JavaScript `Map` populated by insertion. -/
def dedupFirst : List FillStyle → List FillStyle
  | [] => []
  | k :: ks => k :: dedupFirst (ks.filter (fun k2 => k2 != k))
termination_by l => l.length
decreasing_by
  simp only [List.length_cons]
  exact Nat.lt_succ_of_le (List.length_filter_le _ _)

/-- The batched draw: group flakes by fill style in first-occurrence order;
within a group paint the small flakes (radius at most the threshold) as
squares and the large ones as one combined circle path, all with the group's
fill color. -/
def drawBatched (fs : List Snowflake) : List Prim :=
  (dedupFirst (fs.map (fun f => f.fillStyle))).flatMap (fun k =>
    let g := fs.filter (fun f => f.fillStyle == k)
    (g.filter (fun f => decide (f.radius ≤ SMALL_FLAKE_THRESHOLD))).map
      (fun f => rectOf f k)
    ++ (g.filter (fun f => !decide (f.radius ≤ SMALL_FLAKE_THRESHOLD))).map
      (fun f => circleOf f k))

/-- The primitive a flake would produce if drawn individually with its own
fill color. -/
def primOf (f : Snowflake) : Prim :=
  if f.radius ≤ SMALL_FLAKE_THRESHOLD then rectOf f f.fillStyle
  else circleOf f f.fillStyle

/-- The reference rendering: each flake drawn individually. -/
def drawIndividual (fs : List Snowflake) : List Prim :=
  fs.map primOf

/-- `SnowEffect.draw()`: no-op while disabled; otherwise clear the surface and
paint the batched primitives. -/
def SnowEffect.draw (s : SnowEffect) (surface : List Prim) : List Prim :=
  if s.enabled then drawBatched s.snowflakes else surface

/-- `isSnowSeason`: current month is among the configured winter months. -/
def isSnowSeason (winterMonths : List ℕ) (currentMonth : ℕ) : Bool :=
  winterMonths.contains currentMonth

/-- The enabled state a fresh construction computes: the stored preference
when present (`stored === "true"`), else the seasonal default. -/
def initEnabled (stored : Option String) (seasonal : Bool) : Bool :=
  match stored with
  | some v => v == "true"
  | none => seasonal

/-- `String(b)` for a boolean. -/
def boolString (b : Bool) : String :=
  if b then "true" else "false"

/-- The overlay together with its persisted preference and its surface. -/
structure SnowSystem where
  eff : SnowEffect
  storage : Option String
  surface : List Prim

/-- `SnowEffect.toggle()`: flip `enabled`, persist it under the snowEnabled
key, and clear the surface when transitioning to disabled. -/
def SnowSystem.toggle (s : SnowSystem) : SnowSystem :=
  let e := !s.eff.enabled
  { eff := { s.eff with enabled := e },
    storage := some (boolString e),
    surface := if e then s.surface else [] }

/-! ## Shared concrete states used by witnesses and counterexamples -/

/-- The all-zero random bundle. -/
def r0 : RandSrc := { rx := 0, ry := 0, rr := 0, rs := 0, rd := 0, ro := 0 }

/-- A concrete flake. -/
def flake0 : Snowflake := Snowflake.construct 100 100 0 r0

/-- A concrete disabled effect holding one flake. -/
def effOff : SnowEffect :=
  { canvasWidth := 100, canvasHeight := 100, snowflakes := [flake0],
    enabled := false }

/-! ## Claims -/

/-- Claim C5: for every delta sequence, updating while `enabled = false`
changes nothing: the state, and in particular every particle's position and
every other field, is left exactly as it was. -/
theorem update_disabled_freeze (s : SnowEffect)
    (steps : List (ℚ × (ℕ → RandSrc))) (h : s.enabled = false) :
    s.updates steps = s := by
  induction steps with
  | nil => rfl
  | cons p ps ih =>
    have hs : s.update p.1 p.2 = s := by
      simp [SnowEffect.update, h]
    calc s.updates (p :: ps)
        = (s.update p.1 p.2).updates ps := rfl
      _ = s.updates ps := by rw [hs]
      _ = s := ih

/-- Witness for C5 at a concrete disabled state and two concrete steps. -/
theorem update_disabled_freeze_witness :
    effOff.updates [(1, fun _ => r0), (1/2, fun _ => r0)] = effOff :=
  update_disabled_freeze effOff [(1, fun _ => r0), (1/2, fun _ => r0)] rfl

/-- Claim C10: when disabled, `draw()` returns immediately without clearing or
painting: the surface contents are exactly what they were before the call. -/
theorem draw_disabled_noop (s : SnowEffect) (surface : List Prim)
    (h : s.enabled = false) : s.draw surface = surface := by
  simp [SnowEffect.draw, h]

/-- Witness for C10 at a concrete disabled state and nonempty surface. -/
theorem draw_disabled_noop_witness :
    effOff.draw [Prim.rect 0 0 1 1 (rgbaWhite 1)]
      = [Prim.rect 0 0 1 1 (rgbaWhite 1)] :=
  draw_disabled_noop effOff [Prim.rect 0 0 1 1 (rgbaWhite 1)] rfl

/-- Claim C8: `toggle()` flips `enabled`, persists the string form of the new
value under the snowEnabled key, clears the surface when the transition is to
disabled, and a fresh construction reading the persisted value yields the
flipped state whatever the seasonal default says. -/
theorem toggle_flips_persists (s : SnowSystem) (seasonal : Bool) :
    s.toggle.eff.enabled = !s.eff.enabled
    ∧ s.toggle.storage = some (boolString (!s.eff.enabled))
    ∧ (s.eff.enabled = true → s.toggle.surface = [])
    ∧ initEnabled s.toggle.storage seasonal = !s.eff.enabled := by
  refine ⟨rfl, rfl, ?_, ?_⟩
  · intro h
    simp [SnowSystem.toggle, h]
  · cases hb : s.eff.enabled <;>
      simp [SnowSystem.toggle, initEnabled, boolString, hb]

/-- A concrete enabled system with a painted surface. -/
def sysOn : SnowSystem :=
  { eff := { canvasWidth := 100, canvasHeight := 100, snowflakes := [],
             enabled := true },
    storage := none,
    surface := [Prim.rect 0 0 1 1 (rgbaWhite 1)] }

/-- Witness for C8: toggling the concrete enabled system disables it, clears
the surface, persists the false string, and a fresh construction reads back
disabled. -/
theorem toggle_flips_persists_witness :
    sysOn.toggle.surface = [] ∧ sysOn.toggle.eff.enabled = false
    ∧ initEnabled sysOn.toggle.storage true = false := by
  have h := toggle_flips_persists sysOn true
  refine ⟨h.2.2.1 (by decide), ?_, ?_⟩
  · exact h.1.trans (by decide)
  · exact h.2.2.2.trans (by decide)

/-- Claim C6: a flake carried past `height + 10` by the motion update is reset
in place within that same step, leaving `y = -10` exactly; `reset` pins `y` to
`-10` whenever `initial = false` and randomizes it over the full height only
when `initial = true`. -/
theorem respawn_resets_to_top (f : Snowflake) (delta : ℚ) (r : RandSrc)
    (h : f.y + f.speed * delta * 60 > f.canvasHeight + 10) :
    (f.update delta r).y = -10
    ∧ (∀ (w hv : ℚ) (L : ℕ) (r2 : RandSrc),
        (Snowflake.reset w hv L false r2).y = -10)
    ∧ (∀ (w hv : ℚ) (L : ℕ) (r2 : RandSrc),
        (Snowflake.reset w hv L true r2).y = r2.ry * hv) := by
  refine ⟨?_, fun w hv L r2 => rfl, fun w hv L r2 => rfl⟩
  simp only [Snowflake.update, h, if_true, gt_iff_lt]
  split
  · simp [Snowflake.reset]
  · simp only [Snowflake.reset]
    split <;> rfl

/-- A flake one simulated second from crossing the bottom edge. -/
def fallenFlake : Snowflake :=
  { x := 50, y := 595, layer := 1, radius := 1, speed := 1, drift := 0,
    opacity := 1/2, fillStyle := rgbaWhite (1/2), canvasWidth := 100,
    canvasHeight := 600 }

/-- Witness for C6: the concrete fallen flake respawns at `y = -10`. -/
theorem respawn_resets_to_top_witness :
    (fallenFlake.update 1 r0).y = -10 :=
  (respawn_resets_to_top fallenFlake 1 r0 (by norm_num [fallenFlake])).1

/-- A flake sitting at `x = width + 11` whose drift moves it back inside the
wrap band within one step. -/
def wideFlake : Snowflake :=
  { x := 111, y := 0, layer := 0, radius := 1, speed := 1/4, drift := -(1/30),
    opacity := 2/10, fillStyle := rgbaWhite (2/10), canvasWidth := 100,
    canvasHeight := 600 }

/-- Counterexample to claim C7 as stated: this flake starts the step at
`x = width + 11 = 111` yet ends the step at `x = 109`, not `-10`, because the
drift motion runs before the wrap test and `109` is already inside the wrap
band. -/
theorem wrap_claim_counterexample :
    wideFlake.x = wideFlake.canvasWidth + 11
    ∧ (wideFlake.update 1 r0).x ≠ -10
    ∧ (wideFlake.update 1 r0).x = 109 := by
  refine ⟨by norm_num [wideFlake], ?_, ?_⟩ <;>
    norm_num [Snowflake.update, wideFlake]

/-- Claim C7 amended: within one step the wrap test applies to the
post-motion position: if it exceeds `width + 10` the flake ends at `x = -10`,
and if it is below `-10` the flake ends at `x = width + 10`; in particular a
flake with `x = width + 11` and zero drift ends the step at `x = -10` (no
negative overflow, no double wrap).  The motion must not carry the flake past
the bottom edge (which would overwrite `x` by the respawn), and the viewport
width is nonnegative. -/
theorem wrap_after_motion (f : Snowflake) (delta : ℚ) (r : RandSrc)
    (hw : 0 ≤ f.canvasWidth)
    (hy : f.y + f.speed * delta * 60 ≤ f.canvasHeight + 10) :
    (f.x + f.drift * delta * 60 > f.canvasWidth + 10 → (f.update delta r).x = -10)
    ∧ (f.x + f.drift * delta * 60 < -10 →
        (f.update delta r).x = f.canvasWidth + 10)
    ∧ (f.drift = 0 → f.x = f.canvasWidth + 11 → (f.update delta r).x = -10) := by
  have hno : ¬ (f.y + f.speed * delta * 60 > f.canvasHeight + 10) :=
    not_lt.mpr hy
  refine ⟨?_, ?_, ?_⟩
  · intro hx
    simp only [Snowflake.update, hno, if_false, gt_iff_lt]
    simp only [if_pos hx]
  · intro hx
    have hx2 : ¬ (f.x + f.drift * delta * 60 > f.canvasWidth + 10) := by
      intro hgt
      linarith
    simp only [Snowflake.update, hno, if_false, gt_iff_lt]
    simp [hx, hx2]
  · intro hd hx
    have hgt : f.x + f.drift * delta * 60 > f.canvasWidth + 10 := by
      rw [hd, hx]
      ring_nf
      linarith
    simp only [Snowflake.update, hno, if_false, gt_iff_lt]
    simp only [if_pos hgt]

/-- The wideFlake with its drift removed. -/
def driftlessFlake : Snowflake :=
  { x := 111, y := 0, layer := 0, radius := 1, speed := 1/4, drift := 0,
    opacity := 2/10, fillStyle := rgbaWhite (2/10), canvasWidth := 100,
    canvasHeight := 600 }

/-- Witness for the amended C7: the concrete driftless flake at
`x = width + 11` wraps to `-10` in one step. -/
theorem wrap_after_motion_witness :
    (driftlessFlake.update 1 r0).x = -10 :=
  (wrap_after_motion driftlessFlake 1 r0 (by norm_num [driftlessFlake])
    (by norm_num [driftlessFlake])).2.2 (by norm_num [driftlessFlake])
    (by norm_num [driftlessFlake])

/-- Filtering a prefix of an already-filtered list with the same predicate
changes nothing. -/
theorem filter_take_filter_self (p : Snowflake → Bool) (l : List Snowflake)
    (n : ℕ) : ((l.filter p).take n).filter p = (l.filter p).take n := by
  apply List.filter_eq_self.mpr
  intro a ha
  exact (List.mem_filter.mp (List.take_subset _ _ ha)).2

/-- Filtering a prefix of a list filtered by an incompatible predicate gives
the empty list. -/
theorem filter_take_filter_none (p q : Snowflake → Bool) (l : List Snowflake)
    (n : ℕ) (hpq : ∀ f, q f = true → p f = false) :
    ((l.filter q).take n).filter p = [] := by
  apply List.filter_eq_nil_iff.mpr
  intro a ha
  have hq := (List.mem_filter.mp (List.take_subset _ _ ha)).2
  simp [hpq a hq]

/-- Claim C1 amended: after `resize()` the live count equals
`max(floor(w * h / D), MIN_SNOWFLAKES)` exactly whenever that target is at
least the current count (growth or no-op); when the target is below the
current count the shrink step leaves `min(floor(target * ratio_L), n_L)`
flakes per layer, so the total is the sum of those minima, which can fall
short of the target. -/
theorem resize_population (s : SnowEffect) (w h D : ℚ)
    (layerRand : ℕ → ℚ) (resetRand : ℕ → RandSrc) :
    (s.resize w h D layerRand resetRand).snowflakes.length =
      if s.snowflakes.length ≤ targetTotal w h D then targetTotal w h D
      else ((List.range LAYER_DISTRIBUTION.length).map
        (fun L => min (layerQuota (targetTotal w h D) L)
          (s.snowflakes.countP (fun f => f.layer == L)))).sum := by
  simp only [SnowEffect.resize, adjustFlakeCount, List.length_map]
  by_cases h1 : targetTotal w h D > s.snowflakes.length
  · rw [if_pos h1, if_pos (le_of_lt h1)]
    simp only [List.length_append, List.length_map, List.length_range,
      List.length_map]
    omega
  · rw [if_neg h1]
    by_cases h2 : targetTotal w h D < s.snowflakes.length
    · rw [if_pos h2, if_neg (by omega)]
      rw [List.length_flatMap]
      congr 1
      apply List.map_congr_left
      intro L _
      simp only [Function.comp_apply]
      rw [List.length_take, ← List.countP_eq_length_filter, List.countP_map]
      rfl
    · rw [if_neg h2, if_pos (by omega)]
      simp only [List.length_map]
      omega

/-- Witness scaffolding is unnecessary for C1's amended theorem (it has no
hypotheses), but the original claim is refuted below: a 120-flake population
resized to a target of 61 ends with 60 flakes. -/
def balanced120 : List Snowflake :=
  List.replicate 36 (Snowflake.construct 120 1 0 r0)
  ++ List.replicate 48 (Snowflake.construct 120 1 1 r0)
  ++ List.replicate 36 (Snowflake.construct 120 1 2 r0)

/-- A 120-flake effect on a 120-by-1 viewport. -/
def eff120 : SnowEffect :=
  { canvasWidth := 120, canvasHeight := 1, snowflakes := balanced120,
    enabled := true }

/-- Counterexample to claim C1 as stated: resizing the 120-flake effect to a
61-by-1 viewport at density 1 has target `max(floor(61 / 1), 10) = 61`, yet
leaves 60 flakes (layer quotas 18 + 24 + 18), not 61. -/
theorem resize_population_claim_counterexample :
    (eff120.resize 61 1 1 (fun _ => 0) (fun _ => r0)).snowflakes.length ≠
      targetTotal 61 1 1 := by
  have htarget : targetTotal 61 1 1 = 61 := by
    have hf : (⌊(61:ℚ) * 1 / 1⌋ : ℤ) = 61 := by norm_num
    simp only [targetTotal, MIN_SNOWFLAKES, hf]
    omega
  have hq0 : layerQuota 61 0 = 18 := by
    have hf : (⌊((61:ℕ):ℚ) * ((3:ℚ)/10)⌋ : ℤ) = 18 := by norm_num
    simp only [layerQuota, LAYER_DISTRIBUTION, List.getD_cons_zero, hf]
    omega
  have hq1 : layerQuota 61 1 = 24 := by
    have hf : (⌊((61:ℕ):ℚ) * ((4:ℚ)/10)⌋ : ℤ) = 24 := by norm_num
    simp only [layerQuota, LAYER_DISTRIBUTION, List.getD_cons_succ,
      List.getD_cons_zero, hf]
    omega
  have hq2 : layerQuota 61 2 = 18 := by
    have hf : (⌊((61:ℕ):ℚ) * ((3:ℚ)/10)⌋ : ℤ) = 18 := by norm_num
    simp only [layerQuota, LAYER_DISTRIBUTION, List.getD_cons_succ,
      List.getD_cons_zero, hf]
    omega
  rw [htarget]
  norm_num [SnowEffect.resize, adjustFlakeCount, htarget, hq0, hq1, hq2,
    eff120, balanced120, Snowflake.construct, Snowflake.reset,
    LAYER_DISTRIBUTION, List.filter_append, List.filter_replicate,
    List.range_succ, List.take_replicate]

/-- Claim C2 amended: on shrink each layer keeps exactly the first
`min(floor(target * ratio_L), n_L)` of its particles in pre-shrink insertion
order; the count equals `floor(target * ratio_L)` exactly whenever the layer
holds at least that many, but drops to `n_L` for an under-populated layer. -/
theorem shrink_keeps_layer_prefixes (fs : List Snowflake) (w h D : ℚ)
    (layerRand : ℕ → ℚ) (resetRand : ℕ → RandSrc) (L : ℕ)
    (hL : L < LAYER_DISTRIBUTION.length)
    (hT : targetTotal w h D < fs.length) :
    (adjustFlakeCount fs w h D layerRand resetRand).filter
        (fun f => f.layer == L)
      = (fs.filter (fun f => f.layer == L)).take
          (layerQuota (targetTotal w h D) L)
    ∧ (adjustFlakeCount fs w h D layerRand resetRand).countP
        (fun f => f.layer == L)
      = min (layerQuota (targetTotal w h D) L)
          (fs.countP (fun f => f.layer == L)) := by
  have hne : ∀ a b : ℕ, a ≠ b →
      ∀ f : Snowflake, (f.layer == a) = true → (f.layer == b) = false := by
    intro a b hab f hf
    simp only [beq_iff_eq] at hf
    simp only [beq_eq_false_iff_ne]
    omega
  have hmain : (adjustFlakeCount fs w h D layerRand resetRand).filter
      (fun f => f.layer == L)
      = (fs.filter (fun f => f.layer == L)).take
          (layerQuota (targetTotal w h D) L) := by
    simp only [adjustFlakeCount, if_neg (by omega : ¬ targetTotal w h D > fs.length),
      if_pos hT]
    rw [show List.range LAYER_DISTRIBUTION.length = [0, 1, 2] from by decide]
    simp only [List.flatMap_cons, List.flatMap_nil, List.append_nil,
      List.filter_append]
    simp only [LAYER_DISTRIBUTION, List.length_cons, List.length_nil] at hL
    interval_cases L
    · rw [filter_take_filter_self, filter_take_filter_none _ _ _ _ (hne 1 0 (by omega)),
        filter_take_filter_none _ _ _ _ (hne 2 0 (by omega))]
      simp
    · rw [filter_take_filter_self, filter_take_filter_none _ _ _ _ (hne 0 1 (by omega)),
        filter_take_filter_none _ _ _ _ (hne 2 1 (by omega))]
      simp
    · rw [filter_take_filter_self, filter_take_filter_none _ _ _ _ (hne 0 2 (by omega)),
        filter_take_filter_none _ _ _ _ (hne 1 2 (by omega))]
      simp
  refine ⟨hmain, ?_⟩
  rw [List.countP_eq_length_filter, hmain, List.length_take,
    ← List.countP_eq_length_filter]

/-- Twelve flakes, four per layer, on a 10-by-1 viewport. -/
def tri12 : List Snowflake :=
  List.replicate 4 (Snowflake.construct 10 1 0 r0)
  ++ List.replicate 4 (Snowflake.construct 10 1 1 r0)
  ++ List.replicate 4 (Snowflake.construct 10 1 2 r0)

/-- Witness for the amended C2 at a concrete shrink: the twelve-flake list
shrunk to target 10 keeps, in layer 0, exactly the first
`layerQuota 10 0 = 3` of its four layer-0 flakes. -/
theorem shrink_keeps_layer_prefixes_witness :
    (adjustFlakeCount tri12 10 1 1 (fun _ => 0) (fun _ => r0)).filter
        (fun f => f.layer == 0)
      = (tri12.filter (fun f => f.layer == 0)).take
          (layerQuota (targetTotal 10 1 1) 0) :=
  (shrink_keeps_layer_prefixes tri12 10 1 1 (fun _ => 0) (fun _ => r0) 0
    (by simp [LAYER_DISTRIBUTION])
    (by
      have hf : (⌊(10:ℚ) * 1 / 1⌋ : ℤ) = 10 := by norm_num
      simp only [targetTotal, MIN_SNOWFLAKES, hf, tri12, List.length_append,
        List.length_replicate]
      omega)).1

/-- Twelve flakes all in layer 0 on a 10-by-1 viewport. -/
def mono12 : List Snowflake :=
  List.replicate 12 (Snowflake.construct 10 1 0 r0)

/-- Counterexample to claim C2 as stated: shrinking twelve layer-0 flakes to
target 10 (which is below twelve) leaves zero particles in layer 1, not the
claimed `floor(10 * 0.4) = 4`. -/
theorem shrink_layer_exact_counterexample :
    targetTotal 10 1 1 < mono12.length
    ∧ (adjustFlakeCount mono12 10 1 1 (fun _ => 0) (fun _ => r0)).countP
        (fun f => f.layer == 1) = 0
    ∧ layerQuota (targetTotal 10 1 1) 1 = 4 := by
  have htarget : targetTotal 10 1 1 = 10 := by
    have hf : (⌊(10:ℚ) * 1 / 1⌋ : ℤ) = 10 := by norm_num
    simp only [targetTotal, MIN_SNOWFLAKES, hf]
    omega
  have hq1 : layerQuota 10 1 = 4 := by
    have hf : (⌊((10:ℕ):ℚ) * ((4:ℚ)/10)⌋ : ℤ) = 4 := by norm_num
    simp only [layerQuota, LAYER_DISTRIBUTION, List.getD_cons_succ,
      List.getD_cons_zero, hf]
    omega
  refine ⟨by simp [htarget, mono12], ?_, by rw [htarget]; exact hq1⟩
  norm_num [adjustFlakeCount, htarget, mono12, Snowflake.construct,
    Snowflake.reset, LAYER_DISTRIBUTION, List.range_succ, List.filter_replicate,
    List.take_replicate, List.countP_eq_length_filter, List.filter_append]

/-- Claim C9: during growth exactly `target - current` new particles are
constructed and appended, the `i`-th taking its layer from a weighted random
draw `pickLayer (layerRand i)`; and `pickLayer` implements
cumulative-probability selection over the ratios: layer 0 iff `r < 0.3`,
layer 1 iff `0.3 <= r < 0.7`, layer 2 otherwise. -/
theorem grow_appends_weighted (fs : List Snowflake) (w h D : ℚ)
    (layerRand : ℕ → ℚ) (resetRand : ℕ → RandSrc)
    (hT : fs.length < targetTotal w h D) :
    (adjustFlakeCount fs w h D layerRand resetRand
      = fs ++ (List.range (targetTotal w h D - fs.length)).map
          (fun i => Snowflake.construct w h (pickLayer (layerRand i))
            (resetRand i)))
    ∧ (adjustFlakeCount fs w h D layerRand resetRand).length
        = targetTotal w h D
    ∧ (∀ (w2 h2 : ℚ) (L : ℕ) (r2 : RandSrc),
        (Snowflake.construct w2 h2 L r2).layer = L)
    ∧ (∀ r : ℚ, (pickLayer r = 0 ↔ r < 3/10)
        ∧ (pickLayer r = 1 ↔ 3/10 ≤ r ∧ r < 7/10)
        ∧ (pickLayer r = 2 ↔ 7/10 ≤ r)) := by
  have hmain : adjustFlakeCount fs w h D layerRand resetRand
      = fs ++ (List.range (targetTotal w h D - fs.length)).map
          (fun i => Snowflake.construct w h (pickLayer (layerRand i))
            (resetRand i)) := by
    simp only [adjustFlakeCount, if_pos hT]
  refine ⟨hmain, ?_, fun w2 h2 L r2 => rfl, ?_⟩
  · rw [hmain]
    simp only [List.length_append, List.length_map, List.length_range]
    omega
  · intro r
    have hpick : pickLayer r = if r < 3/10 then 0 else if r < 7/10 then 1 else 2 := by
      simp only [pickLayer, LAYER_DISTRIBUTION, List.getD_cons_zero,
        List.getD_cons_succ]
      norm_num
    rcases lt_or_le r (3/10) with h1 | h1
    · rw [hpick, if_pos h1]
      refine ⟨by simp [h1], ?_, ?_⟩
      · constructor
        · intro hh
          exact absurd hh (by decide)
        · intro hh
          exact absurd hh.1 (not_le.mpr h1)
      · constructor
        · intro hh
          exact absurd hh (by decide)
        · intro hh
          exact absurd hh (not_le.mpr (by linarith))
    · rcases lt_or_le r (7/10) with h2 | h2
      · rw [hpick, if_neg (not_lt.mpr h1), if_pos h2]
        refine ⟨?_, by simp [h1, h2], ?_⟩
        · constructor
          · intro hh
            exact absurd hh (by decide)
          · intro hh
            exact absurd hh (not_lt.mpr h1)
        · constructor
          · intro hh
            exact absurd hh (by decide)
          · intro hh
            exact absurd hh (not_le.mpr h2)
      · rw [hpick, if_neg (not_lt.mpr h1), if_neg (not_lt.mpr h2)]
        refine ⟨?_, ?_, by simp [h2]⟩
        · constructor
          · intro hh
            exact absurd hh (by decide)
          · intro hh
            exact absurd hh (not_lt.mpr h1)
        · constructor
          · intro hh
            exact absurd hh (by decide)
          · intro hh
            exact absurd hh.2 (not_lt.mpr h2)

/-- Witness for C9: growing the empty collection on a 3-by-4 viewport at
density 1 (target 12) appends twelve constructed flakes, and the pick
thresholds hold at the concrete draw 1/2 (layer 1). -/
theorem grow_appends_weighted_witness :
    (adjustFlakeCount [] 3 4 1 (fun _ => 1/2) (fun _ => r0)).length
      = targetTotal 3 4 1
    ∧ pickLayer (1/2) = 1 := by
  have hT : ([] : List Snowflake).length < targetTotal 3 4 1 := by
    have hf : (⌊(3:ℚ) * 4 / 1⌋ : ℤ) = 12 := by norm_num
    simp only [targetTotal, MIN_SNOWFLAKES, hf, List.length_nil]
    omega
  have h := grow_appends_weighted [] 3 4 1 (fun _ => 1/2) (fun _ => r0) hT
  refine ⟨h.2.1, ?_⟩
  exact (h.2.2.2 (1/2)).2.1.mpr (by norm_num)

/-- The C4 invariant: opacity lies in `[0, 1]`, is a whole number of tenths,
and the fill style is exactly the translucency-encoded white derived from it. -/
def opacityFillInv (f : Snowflake) : Prop :=
  0 ≤ f.opacity ∧ f.opacity ≤ 1 ∧ (∃ k : ℤ, f.opacity = (k : ℚ) / 10)
  ∧ f.fillStyle = rgbaWhite f.opacity

/-- Rounding a rational in `[3/2, 8)` and dividing by ten lands in `[0, 1]`. -/
theorem round_div_ten_bounds (z : ℚ) (hz1 : 3/2 ≤ z) (hz2 : z < 8) :
    0 ≤ ((round z : ℤ) : ℚ) / 10 ∧ ((round z : ℤ) : ℚ) / 10 ≤ 1 := by
  have h1 : (0 : ℤ) ≤ round z := by
    rw [round_eq]
    exact Int.le_floor.mpr (by push_cast; linarith)
  have h2 : round z ≤ 8 := by
    rw [round_eq]
    have h9 : ⌊z + 1/2⌋ < 9 := Int.floor_lt.mpr (by push_cast; linarith)
    omega
  constructor
  · apply div_nonneg _ (by norm_num)
    exact_mod_cast h1
  · rw [div_le_one (by norm_num)]
    calc ((round z : ℤ) : ℚ) ≤ 8 := by exact_mod_cast h2
      _ ≤ 10 := by norm_num

/-- Every reset with a layer in range and an opacity draw in `[0, 1)`
establishes the C4 invariant. -/
theorem opacityFillInv_reset (w h : ℚ) (L : ℕ) (init : Bool) (r : RandSrc)
    (hL : L ≤ 2) (h0 : 0 ≤ r.ro) (h1 : r.ro < 1) :
    opacityFillInv (Snowflake.reset w h L init r) := by
  have hb : 3/2 ≤ (3/10 + r.ro * (4/10)) * (1/2 + (L:ℚ) * (3/10)) * 10
      ∧ (3/10 + r.ro * (4/10)) * (1/2 + (L:ℚ) * (3/10)) * 10 < 8 := by
    interval_cases L <;> constructor <;> push_cast <;> linarith
  exact ⟨(round_div_ten_bounds _ hb.1 hb.2).1,
    (round_div_ten_bounds _ hb.1 hb.2).2, ⟨_, rfl⟩, rfl⟩

/-- A step preserves the C4 invariant: the wrap branches touch only `x`, and
the respawn branch re-establishes the invariant via `reset`. -/
theorem opacityFillInv_update (f : Snowflake) (delta : ℚ) (r : RandSrc)
    (hL : f.layer ≤ 2) (h0 : 0 ≤ r.ro) (h1 : r.ro < 1)
    (hf : opacityFillInv f) : opacityFillInv (f.update delta r) := by
  have hres := opacityFillInv_reset f.canvasWidth f.canvasHeight f.layer
    false r hL h0 h1
  by_cases hc : f.y + f.speed * delta * 60 > f.canvasHeight + 10
  · simp only [Snowflake.update, hc, if_true, gt_iff_lt]
    split
    · exact hres
    · split
      · exact hres
      · exact hres
  · simp only [Snowflake.update, hc, if_false, gt_iff_lt]
    split
    · exact hf
    · split
      · exact hf
      · exact hf

/-- Claim C4: after every creation or reset, opacity is a multiple of `0.1`
inside `[0, 1]` and the fill style is exactly the translucency-encoded white
derived from it; a simulation step never changes opacity without rederiving
the fill style, so the invariant holds at all times. -/
theorem opacity_quantized_and_consistent :
    (∀ (w h : ℚ) (L : ℕ) (init : Bool) (r : RandSrc),
      L ≤ 2 → 0 ≤ r.ro → r.ro < 1 →
      opacityFillInv (Snowflake.reset w h L init r))
    ∧ (∀ (f : Snowflake) (delta : ℚ) (r : RandSrc),
      f.layer ≤ 2 → 0 ≤ r.ro → r.ro < 1 →
      opacityFillInv f → opacityFillInv (f.update delta r)) :=
  ⟨fun w h L init r hL h0 h1 => opacityFillInv_reset w h L init r hL h0 h1,
   fun f delta r hL h0 h1 hf => opacityFillInv_update f delta r hL h0 h1 hf⟩

/-- A random bundle whose opacity draw is one half. -/
def rHalf : RandSrc := { rx := 0, ry := 0, rr := 0, rs := 0, rd := 0, ro := 1/2 }

/-- Witness for C4 at concrete inputs: a fresh layer-1 flake satisfies the
invariant, and so does the concrete flake after a concrete step. -/
theorem opacity_quantized_and_consistent_witness :
    opacityFillInv (Snowflake.reset 800 600 1 true rHalf)
    ∧ opacityFillInv (flake0.update 1 rHalf) := by
  have h := opacity_quantized_and_consistent
  refine ⟨h.1 800 600 1 true rHalf (by norm_num) (by norm_num [rHalf])
    (by norm_num [rHalf]), ?_⟩
  exact h.2 flake0 1 rHalf (by decide) (by norm_num [rHalf])
    (by norm_num [rHalf])
    (h.1 100 100 0 true r0 (by norm_num) (by norm_num [r0]) (by norm_num [r0]))

/-- Membership in the first-occurrence deduplication is membership in the
original list. -/
theorem mem_dedupFirst (l : List FillStyle) (k : FillStyle) :
    k ∈ dedupFirst l ↔ k ∈ l := by
  induction l using dedupFirst.induct with
  | case1 => simp [dedupFirst]
  | case2 k2 ks ih =>
    rw [dedupFirst]
    rcases eq_or_ne k k2 with rfl | hne
    · simp
    · simp only [List.mem_cons, ih, List.mem_filter, bne_iff_ne]
      simp [hne]

/-- The first-occurrence deduplication has no duplicates. -/
theorem nodup_dedupFirst (l : List FillStyle) : (dedupFirst l).Nodup := by
  induction l using dedupFirst.induct with
  | case1 => simp [dedupFirst]
  | case2 k2 ks ih =>
    rw [dedupFirst]
    refine List.nodup_cons.mpr ⟨?_, ih⟩
    rw [mem_dedupFirst]
    simp [List.mem_filter]

/-- Pointwise-equal functions give equal flatMaps. -/
theorem flatMap_congr_mem {α β : Type} (l : List α) (f g : α → List β)
    (h : ∀ a ∈ l, f a = g a) : l.flatMap f = l.flatMap g := by
  induction l with
  | nil => rfl
  | cons a l ih =>
    simp only [List.flatMap_cons]
    rw [h a (by simp), ih (fun b hb => h b (by simp [hb]))]

/-- Pointwise-permuted functions give permuted flatMaps. -/
theorem flatMap_perm_mem {α β : Type} (l : List α) (f g : α → List β)
    (h : ∀ a ∈ l, (f a).Perm (g a)) : (l.flatMap f).Perm (l.flatMap g) := by
  induction l with
  | nil => exact List.Perm.refl _
  | cons a l ih =>
    simp only [List.flatMap_cons]
    exact (h a (by simp)).append (ih fun b hb => h b (by simp [hb]))

/-- Concatenating, over a duplicate-free and covering key list, the flakes
carrying each key is a permutation of the flake list itself. -/
theorem flatMap_filter_key_perm (ks : List FillStyle) (l : List Snowflake)
    (hnd : ks.Nodup) (hcov : ∀ f ∈ l, f.fillStyle ∈ ks) :
    (ks.flatMap (fun k => l.filter (fun f => f.fillStyle == k))).Perm l := by
  induction ks generalizing l with
  | nil =>
    have hl : l = [] := by
      cases l with
      | nil => rfl
      | cons a l => exact absurd (hcov a (by simp)) (by simp)
    simp [hl]
  | cons k ks ih =>
    simp only [List.flatMap_cons]
    have htail : ks.flatMap (fun k2 => l.filter (fun f => f.fillStyle == k2))
        = ks.flatMap (fun k2 =>
            (l.filter (fun f => !(f.fillStyle == k))).filter
              (fun f => f.fillStyle == k2)) := by
      apply flatMap_congr_mem
      intro k2 hk2
      have hk2ne : k2 ≠ k := by
        intro hEq
        exact (List.nodup_cons.mp hnd).1 (hEq ▸ hk2)
      rw [List.filter_filter]
      apply List.filter_congr
      intro f _
      rcases hb : f.fillStyle == k2 with _ | _
      · simp
      · have hfk2 : f.fillStyle = k2 := by
          simpa using hb
        simp [hfk2, hk2ne]
    rw [htail]
    have ihh := ih (l.filter (fun f => !(f.fillStyle == k)))
      (List.nodup_cons.mp hnd).2 ?_
    · exact (ihh.append_left _).trans
        (List.filter_append_perm (fun f => f.fillStyle == k) l)
    · intro f hf
      have hmem := List.mem_filter.mp hf
      have hne : f.fillStyle ≠ k := by
        simpa using hmem.2
      have := hcov f hmem.1
      simp only [List.mem_cons] at this
      exact this.resolve_left hne

/-- Within one fill-style group, painting smalls as squares and larges as
circles with the group color is a permutation of painting each member
individually. -/
theorem group_prims_perm (g : List Snowflake) (k : FillStyle)
    (hk : ∀ f ∈ g, f.fillStyle = k) :
    ((g.filter (fun f => decide (f.radius ≤ SMALL_FLAKE_THRESHOLD))).map
        (fun f => rectOf f k)
      ++ (g.filter (fun f => !decide (f.radius ≤ SMALL_FLAKE_THRESHOLD))).map
        (fun f => circleOf f k)).Perm (g.map primOf) := by
  have hsmall : (g.filter (fun f => decide (f.radius ≤ SMALL_FLAKE_THRESHOLD))).map
      (fun f => rectOf f k)
      = (g.filter (fun f => decide (f.radius ≤ SMALL_FLAKE_THRESHOLD))).map
          primOf := by
    apply List.map_congr_left
    intro f hf
    have h1 := of_decide_eq_true (List.mem_filter.mp hf).2
    have h2 := hk f (List.mem_filter.mp hf).1
    rw [primOf, if_pos h1, h2]
  have hlarge : (g.filter (fun f => !decide (f.radius ≤ SMALL_FLAKE_THRESHOLD))).map
      (fun f => circleOf f k)
      = (g.filter (fun f => !decide (f.radius ≤ SMALL_FLAKE_THRESHOLD))).map
          primOf := by
    apply List.map_congr_left
    intro f hf
    have h1 : ¬ f.radius ≤ SMALL_FLAKE_THRESHOLD := by
      have := (List.mem_filter.mp hf).2
      simpa using this
    have h2 := hk f (List.mem_filter.mp hf).1
    rw [primOf, if_neg h1, h2]
  rw [hsmall, hlarge, ← List.map_append]
  exact (List.filter_append_perm _ g).map primOf

/-- Claim C3: the multiset of primitives painted by the grouped, batched
`draw()` is a permutation of — and therefore paints the same set of
(position, radius, fill) primitives as — drawing each flake individually
with its own fill color. -/
theorem draw_batched_equals_individual (fs : List Snowflake) :
    (drawBatched fs).Perm (drawIndividual fs)
    ∧ (drawBatched fs).toFinset = (drawIndividual fs).toFinset := by
  have hperm : (drawBatched fs).Perm (drawIndividual fs) := by
    unfold drawBatched drawIndividual
    have step1 : ((dedupFirst (fs.map (fun f => f.fillStyle))).flatMap (fun k =>
        (fs.filter (fun f => f.fillStyle == k)
          |>.filter (fun f => decide (f.radius ≤ SMALL_FLAKE_THRESHOLD))).map
          (fun f => rectOf f k)
        ++ (fs.filter (fun f => f.fillStyle == k)
          |>.filter (fun f => !decide (f.radius ≤ SMALL_FLAKE_THRESHOLD))).map
          (fun f => circleOf f k))).Perm
        ((dedupFirst (fs.map (fun f => f.fillStyle))).flatMap (fun k =>
          (fs.filter (fun f => f.fillStyle == k)).map primOf)) := by
      apply flatMap_perm_mem
      intro k _
      exact group_prims_perm _ k
        (fun f hf => by simpa using (List.mem_filter.mp hf).2)
    refine step1.trans ?_
    rw [← List.map_flatMap]
    apply List.Perm.map
    apply flatMap_filter_key_perm _ _ (nodup_dedupFirst _)
    intro f hf
    rw [mem_dedupFirst]
    exact List.mem_map_of_mem _ hf
  exact ⟨hperm, List.toFinset_eq_of_perm _ _ hperm⟩

end Tarelka
